import Mathlib

/-!
Verification development for the `py-method-profiler` repository
(`profiling_wrapper.py`): a transparent call-timing proxy
(`ProfilingWrapper`) with a process-wide registry mapping
`"ClassName.methodName"` keys to ordered lists of elapsed-time samples,
plus accessors for raw samples and summary statistics.

Modelling conventions:
* Durations (Python floats, seconds) are modelled as rationals `ℚ`;
  the statistics helper's square root lives in `ℝ`.
* The registry `ProfilingWrapper._profiling_data` (a `defaultdict(list)`
  keyed by strings, insertion ordered) is modelled as an association list
  `List (String × List ℚ)`; Python dict reads take the first matching
  entry and writes update it in place.
* Exceptions are modelled with `Except String`.
-/

namespace PyProfiler

/-- Association-list read, the value stored for key `n` (Python `d[n]`
presence side: first matching entry, as in a dict with unique keys). -/
def alookup {β : Type} : List (String × β) → String → Option β
  | [], _ => none
  | e :: rest, n => if e.1 = n then some e.2 else alookup rest n

/-- Association-list write, Python `d[n] = v`: replace the value of the
existing entry for `n` in place, or append a new entry at the end. -/
def aset {β : Type} : List (String × β) → String → β → List (String × β)
  | [], n, v => [(n, v)]
  | e :: rest, n, v => if e.1 = n then (e.1, v) :: rest else e :: aset rest n v

/-- The shared timing registry `ProfilingWrapper._profiling_data`:
a mapping from method key to the ordered list of duration samples. -/
abbrev Registry := List (String × List ℚ)

/-- Python `key in dict` membership test. -/
def hasKey (r : Registry) (k : String) : Bool :=
  (alookup r k).isSome

/-- The net effect of `ProfilingWrapper._profiling_data[key].append(t)`
inside `timed_method`: the `defaultdict` item access materialises an
empty list for a missing key, then `append` extends it. -/
def recordSample (r : Registry) (k : String) (t : ℚ) : Registry :=
  match alookup r k with
  | some xs => aset r k (xs ++ [t])
  | none => r ++ [(k, [t])]

/-- `ProfilingWrapper.get_profiling_data(key)` as a pure function of the
registry value: the guarded `if key in cls._profiling_data` read returns
the stored sample list (as a fresh NumPy array), and `np.array([])` for
an unknown key. -/
def get_profiling_data (r : Registry) (k : String) : List ℚ :=
  match alookup r k with
  | some xs => xs
  | none => []

/-- `ProfilingWrapper.get_all_profiling_data()`: a new dict holding a
NumPy-array copy of every key's sample list (value-level, the same
key/samples association). -/
def get_all_profiling_data (r : Registry) : Registry :=
  r.map (fun e => (e.1, e.2))

/-- `ProfilingWrapper.clear_profiling_data(key)`: with no key, `.clear()`
empties the whole dict; with a key that is present, the stored list is
emptied in place (the key stays mapped, now to the empty list); with an
absent key, nothing happens. -/
def clear_profiling_data (r : Registry) (k : Option String) : Registry :=
  match k with
  | none => []
  | some key => if hasKey r key then aset r key [] else r

/-- `np.sum(data)`. -/
def npSum (l : List ℚ) : ℚ := l.sum

/-- `np.mean(data)`: sum divided by length. -/
def npMean (l : List ℚ) : ℚ := l.sum / l.length

/-- `np.min(data)` over a non-empty array (0 as the unused default). -/
def npMin (l : List ℚ) : ℚ :=
  match l with
  | [] => 0
  | x :: xs => xs.foldl min x

/-- `np.max(data)` over a non-empty array (0 as the unused default). -/
def npMax (l : List ℚ) : ℚ :=
  match l with
  | [] => 0
  | x :: xs => xs.foldl max x

/-- `np.median(data)`: middle element of a sorted copy, or the average of
the two middle elements for an even length. -/
def npMedian (l : List ℚ) : ℚ :=
  let s := l.insertionSort (· ≤ ·)
  if l.length % 2 = 1 then s.getD (l.length / 2) 0
  else (s.getD (l.length / 2 - 1) 0 + s.getD (l.length / 2) 0) / 2

/-- The mean squared deviation `np.mean(abs(data - data.mean())**2)`,
the quantity under the square root in `np.std` (default `ddof=0`). -/
def npVar (l : List ℚ) : ℚ :=
  ((l.map (fun x => (x - npMean l) ^ 2)).sum) / l.length

/-- `np.std(data)` with the default `ddof=0`: square root of the mean
squared deviation from the mean. -/
noncomputable def npStd (l : List ℚ) : ℝ :=
  Real.sqrt (npVar l)

/-- The record returned by `ProfilingWrapper.get_statistics`, field per
dict entry in the source's order. -/
structure Stats where
  count : ℕ
  mean : ℚ
  median : ℚ
  std : ℝ
  min : ℚ
  max : ℚ
  total : ℚ

/-- `ProfilingWrapper.get_statistics(key)`: reads the samples through
`get_profiling_data`, returns the literal zero record when there are
none, and otherwise the NumPy descriptive statistics. -/
noncomputable def get_statistics (r : Registry) (k : String) : Stats :=
  let data := get_profiling_data r k
  if data.length = 0 then
    { count := 0, mean := 0, median := 0, std := 0, min := 0, max := 0, total := 0 }
  else
    { count := data.length, mean := npMean data, median := npMedian data,
      std := npStd data, min := npMin data, max := npMax data, total := npSum data }

/-! State-passing view of the registry reads. The backing store is a
`defaultdict(list)`, whose item access *inserts* an empty list for a
missing key; the accessors below are the source's compositions of the
dict primitives, each returning the value read together with the
possibly-updated store, so that lazy key creation is observable. -/

/-- Python `defaultdict(list).__getitem__`: returns the stored list for a
present key, and otherwise inserts (and returns) a fresh empty list. -/
def dd_getitem (r : Registry) (k : String) : List ℚ × Registry :=
  match alookup r k with
  | some xs => (xs, r)
  | none => ([], r ++ [(k, [])])

/-- `get_profiling_data` with the store threaded through: the `key in`
guard decides between the item access and the literal empty array. -/
def get_profiling_data_st (r : Registry) (k : String) : List ℚ × Registry :=
  if hasKey r k then dd_getitem r k else ([], r)

/-- `get_all_profiling_data` with the store threaded through: `.items()`
iteration builds a new dict of copies and performs no item access. -/
def get_all_profiling_data_st (r : Registry) : Registry × Registry :=
  (r.map (fun e => (e.1, e.2)), r)

/-- `get_statistics` with the store threaded through: it reads through
`get_profiling_data` and then only computes on the returned array. -/
noncomputable def get_statistics_st (r : Registry) (k : String) : Stats × Registry :=
  let (data, r') := get_profiling_data_st r k
  if data.length = 0 then
    ({ count := 0, mean := 0, median := 0, std := 0, min := 0, max := 0, total := 0 }, r')
  else
    ({ count := data.length, mean := npMean data, median := npMedian data,
       std := npStd data, min := npMin data, max := npMax data, total := npSum data }, r')

/-! The wrapped object and the proxy. A Python attribute value is
modelled by a payload together with its `callable(attr)` status. -/

/-- An attribute value on the wrapped object: `callable` is the result
of Python's `callable(attr)` test in `__getattr__`. -/
structure PyVal where
  payload : ℕ
  callable : Bool
deriving DecidableEq

/-- The wrapped object: its runtime class name (`obj.__class__.__name__`)
and its attribute dictionary. -/
structure Target where
  className : String
  attrs : List (String × PyVal)
deriving DecidableEq

/-- Python `getattr(obj, name)`: the value when present, and otherwise
the target's own `AttributeError`, whose message is determined by the
target (modelled as a string naming the target's class and the name). -/
def target_getattr (t : Target) (n : String) : Except String PyVal :=
  match alookup t.attrs n with
  | some v => Except.ok v
  | none => Except.error ("AttributeError: " ++ t.className ++ " object has no attribute " ++ n)

/-- A `ProfilingWrapper` instance: the captured target reference
(`self._wrapped_obj`), the captured class name (`self._class_name`), and
the proxy's own instance dictionary holding any further attributes stored
on the proxy itself by `__setattr__`'s underscore branch. -/
structure Proxy where
  wrapped : Target
  className : String
  ownAttrs : List (String × PyVal)
deriving DecidableEq

/-- `ProfilingWrapper.__init__(obj)`: captures the object and its class
name; nothing else is stored on the proxy. -/
def mkProxy (t : Target) : Proxy :=
  { wrapped := t, className := t.className, ownAttrs := [] }

/-- What an attribute read on the proxy produces when it succeeds: the
raw value as stored, or the timed substitute `timed_method` wrapping a
callable, carrying the registry key it will record under. -/
inductive ReadResult where
  | raw (v : PyVal)
  | timed (key : String) (v : PyVal)
deriving DecidableEq

/-- `ProfilingWrapper.__getattr__(name)`: resolve the name on the wrapped
target via `getattr` (its failure propagates unchanged — there is no
handler); wrap a callable result in the timed substitute keyed by
`"{class name}.{name}"`; return a non-callable result as is. -/
def proxy_getattr (p : Proxy) (n : String) : Except String ReadResult :=
  match target_getattr p.wrapped n with
  | Except.error e => Except.error e
  | Except.ok v =>
    if v.callable then Except.ok (ReadResult.timed (p.className ++ "." ++ n) v)
    else Except.ok (ReadResult.raw v)

/-- A full attribute read on the proxy object: Python consults the
proxy's own instance dictionary first and only falls back to
`__getattr__` when the name is not found there. -/
def proxy_read (p : Proxy) (n : String) : Except String ReadResult :=
  match alookup p.ownAttrs n with
  | some v => Except.ok (ReadResult.raw v)
  | none => proxy_getattr p n

/-- Python's `name.startswith('_')`: whether the first character of the
name is the reserved underscore. -/
def startsWithUnderscore (n : String) : Bool :=
  match n.data with
  | [] => false
  | c :: _ => c = '_'

/-- `ProfilingWrapper.__setattr__(name, value)`: names starting with an
underscore are the proxy's reserved bookkeeping names and are stored on
the proxy itself; every other write is forwarded to the target. -/
def proxy_setattr (p : Proxy) (n : String) (v : PyVal) : Proxy :=
  if startsWithUnderscore n then { p with ownAttrs := aset p.ownAttrs n v }
  else { p with wrapped := { p.wrapped with attrs := aset p.wrapped.attrs n v } }

/-! The timed substitute. One invocation of the wrapped method is
described by the two clock readings around it and the call's outcome. -/

/-- One invocation of the underlying bound method: the
`time.perf_counter()` readings taken before and after it, and the
outcome of `attr(*args, **kwargs)` — a result or a raised exception. -/
structure CallEvent (α : Type) where
  start : ℚ
  stop : ℚ
  outcome : Except String α

/-- The substitute `timed_method` from `__getattr__`: runs the original
callable between the two clock readings; a raised exception propagates
before the append is reached, so nothing is recorded; on success the
elapsed time is appended under `"{class name}.{name}"` and the original
result is returned unchanged. -/
def timed_method {α : Type} (className n : String) (ev : CallEvent α) (r : Registry) :
    Except String α × Registry :=
  let key := className ++ "." ++ n
  match ev.outcome with
  | Except.error e => (Except.error e, r)
  | Except.ok res => (Except.ok res, recordSample r key (ev.stop - ev.start))

/-- A sequence of invocations of the same wrapped method, threading the
shared registry through and collecting each call's outcome. -/
def runCalls {α : Type} (className n : String) :
    List (CallEvent α) → Registry → List (Except String α) × Registry
  | [], r => ([], r)
  | ev :: evs, r =>
    let (res, r') := timed_method className n ev r
    let (ress, r'') := runCalls className n evs r'
    (res :: ress, r'')

/-- The elapsed durations of a sequence of call events, in call order. -/
def durations {α : Type} (evs : List (CallEvent α)) : List ℚ :=
  evs.map (fun ev => ev.stop - ev.start)

/-- Population variance in moment form, as the specification describes
the `std` field: the mean of the squares minus the square of the mean,
the variance that divides by N (not N − 1). -/
def populationVariance (l : List ℚ) : ℚ :=
  (l.map (fun x => x ^ 2)).sum / l.length - (l.sum / l.length) ^ 2

/-! Heap-level refinement of the registry, making Python's reference
semantics explicit: the dict maps each key to a *reference* to a sample
list living on a heap of list cells, `list.append` mutates the
referenced cell in place, and `np.array(list)` allocates a fresh cell
holding a copy. This is the level at which the freshness of the arrays
returned by the accessors is expressible. -/

/-- The store: a heap of list cells (a cell address is its index) and
the registry dict mapping keys to cell addresses. -/
structure HStore where
  heap : List (List ℚ)
  reg : List (String × ℕ)

/-- Dereference a cell (addresses handed out are always in range). -/
def readCell (s : HStore) (a : ℕ) : List ℚ :=
  (s.heap.get? a).getD []

/-- Overwrite a cell in place, as a mutation of the referenced Python
list or NumPy array does. -/
def writeCell (s : HStore) (a : ℕ) (v : List ℚ) : HStore :=
  { s with heap := s.heap.set a v }

/-- Allocate a fresh cell holding `v`; its address is the old heap size. -/
def allocCell (s : HStore) (v : List ℚ) : ℕ × HStore :=
  (s.heap.length, { s with heap := s.heap ++ [v] })

/-- `_profiling_data[key].append(t)` at the heap level: a present key's
cell is mutated in place; a missing key gets a fresh cell (the
`defaultdict` inserts an empty list, which `append` then extends). -/
def hRecordSample (s : HStore) (k : String) (t : ℚ) : HStore :=
  match alookup s.reg k with
  | some a => writeCell s a (readCell s a ++ [t])
  | none =>
    let (a, s') := allocCell s [t]
    { s' with reg := s'.reg ++ [(k, a)] }

/-- `get_profiling_data(key)` at the heap level: `np.array(...)` hands
back a *fresh* cell holding a copy of the stored samples (or a fresh
empty array for an unknown key). -/
def hGetSamples (s : HStore) (k : String) : ℕ × HStore :=
  match alookup s.reg k with
  | some a => allocCell s (readCell s a)
  | none => allocCell s []

/-- The dict-comprehension body of `get_all_profiling_data`: one fresh
copy cell per registry entry, in iteration order. -/
def hGetAllAux (s : HStore) : List (String × ℕ) → List (String × ℕ) × HStore
  | [] => ([], s)
  | (k, a) :: rest =>
    let (b, s') := allocCell s (readCell s a)
    let (out, s'') := hGetAllAux s' rest
    ((k, b) :: out, s'')

/-- `get_all_profiling_data()` at the heap level: a new dict mapping
every key to a fresh copy of its samples. -/
def hGetAll (s : HStore) : List (String × ℕ) × HStore :=
  hGetAllAux s s.reg

/-- Store well-formedness: every registry reference points into the
heap. It holds for every store reachable from the empty one. -/
def HWF (s : HStore) : Prop :=
  ∀ e ∈ s.reg, e.2 < s.heap.length

/-! Basic association-list lemmas shared by the claim proofs. -/

theorem alookup_aset_self {β : Type} (l : List (String × β)) (n : String) (v : β) :
    alookup (aset l n v) n = some v := by
  induction l with
  | nil => simp [aset, alookup]
  | cons e rest ih =>
    by_cases h : e.1 = n
    · simp [aset, h, alookup]
    · simp [aset, h, alookup, ih]

theorem alookup_aset_ne {β : Type} (l : List (String × β)) (n m : String) (v : β)
    (h : m ≠ n) : alookup (aset l n v) m = alookup l m := by
  have h' : n ≠ m := Ne.symm h
  induction l with
  | nil => simp [aset, alookup, h']
  | cons e rest ih =>
    by_cases he : e.1 = n
    · simp [aset, he, alookup, h']
    · by_cases hm : e.1 = m
      · simp [aset, he, alookup, hm, h]
      · simp [aset, he, alookup, hm, ih]

theorem aset_keys_of_mem {β : Type} (l : List (String × β)) (n : String) (v : β)
    (h : (alookup l n).isSome) : (aset l n v).map Prod.fst = l.map Prod.fst := by
  induction l with
  | nil => simp [alookup] at h
  | cons e rest ih =>
    by_cases he : e.1 = n
    · simp [aset, he]
    · simp [alookup, he] at h
      simp [aset, he, ih h]

theorem alookup_append {β : Type} (l l' : List (String × β)) (n : String) :
    alookup (l ++ l') n =
      match alookup l n with
      | some v => some v
      | none => alookup l' n := by
  induction l with
  | nil => simp [alookup]
  | cons e rest ih =>
    by_cases he : e.1 = n
    · simp [alookup, he]
    · simp [alookup, he, ih]

/-- Appending a sample extends exactly that key's sample list. -/
theorem get_profiling_data_recordSample_self (r : Registry) (k : String) (t : ℚ) :
    get_profiling_data (recordSample r k t) k = get_profiling_data r k ++ [t] := by
  unfold recordSample get_profiling_data
  cases h : alookup r k with
  | some xs => simp [alookup_aset_self]
  | none => simp [alookup_append, h, alookup]

/-- Appending a sample leaves every other key's sample list unchanged. -/
theorem get_profiling_data_recordSample_ne (r : Registry) (k k' : String) (t : ℚ)
    (h : k' ≠ k) :
    get_profiling_data (recordSample r k t) k' = get_profiling_data r k' := by
  unfold recordSample get_profiling_data
  cases hk : alookup r k with
  | some xs => rw [alookup_aset_ne r k k' (xs ++ [t]) h]
  | none =>
    rw [alookup_append]
    cases hk' : alookup r k' with
    | some ys => rfl
    | none =>
      have h' : k ≠ k' := Ne.symm h
      simp [alookup, h']

/-- Each call's returned value is the underlying call's own outcome,
success or failure, unchanged. -/
theorem runCalls_results {α : Type} (className n : String) (evs : List (CallEvent α))
    (r : Registry) :
    (runCalls className n evs r).1 = evs.map (fun ev => ev.outcome) := by
  induction evs generalizing r with
  | nil => rfl
  | cons ev rest ih =>
    unfold runCalls
    cases h : ev.outcome with
    | error e => simp [timed_method, h, ih]
    | ok a => simp [timed_method, h, ih]

/-- A run of successful calls appends exactly its durations, in call
order, to the key's sample list. -/
theorem runCalls_samples {α : Type} (className n : String) (evs : List (CallEvent α))
    (r : Registry) (hok : ∀ ev ∈ evs, ev.outcome.isOk = true) :
    get_profiling_data (runCalls className n evs r).2 (className ++ "." ++ n)
      = get_profiling_data r (className ++ "." ++ n) ++ durations evs := by
  induction evs generalizing r with
  | nil => simp [runCalls, durations]
  | cons ev rest ih =>
    have hev := hok ev (by simp)
    cases h : ev.outcome with
    | error e => rw [h] at hev; simp [Except.isOk, Except.toBool] at hev
    | ok a =>
      have hrest : ∀ e ∈ rest, e.outcome.isOk = true := fun e he => hok e (by simp [he])
      calc get_profiling_data (runCalls className n (ev :: rest) r).2 (className ++ "." ++ n)
          = get_profiling_data
              (runCalls className n rest
                (recordSample r (className ++ "." ++ n) (ev.stop - ev.start))).2
              (className ++ "." ++ n) := by
            simp [runCalls, timed_method, h]
        _ = get_profiling_data (recordSample r (className ++ "." ++ n) (ev.stop - ev.start))
              (className ++ "." ++ n) ++ durations rest := ih _ hrest
        _ = get_profiling_data r (className ++ "." ++ n) ++ [ev.stop - ev.start]
              ++ durations rest := by
            rw [get_profiling_data_recordSample_self]
        _ = get_profiling_data r (className ++ "." ++ n) ++ durations (ev :: rest) := by
            simp [durations]

/-- C3: starting from an empty sample sequence for the key, a run of N
successful calls of the same wrapped method leaves `get_profiling_data`
with exactly the N durations in call order, of length exactly N, every
value non-negative (the clock is monotonic: each stop reading is at
least its start reading), and every call returned the target method's
original result unchanged. -/
theorem successful_calls_sampled_in_order {α : Type} (className n : String)
    (evs : List (CallEvent α)) (r : Registry)
    (hok : ∀ ev ∈ evs, ev.outcome.isOk = true)
    (hclock : ∀ ev ∈ evs, ev.start ≤ ev.stop)
    (hempty : get_profiling_data r (className ++ "." ++ n) = []) :
    get_profiling_data (runCalls className n evs r).2 (className ++ "." ++ n)
      = durations evs ∧
    (get_profiling_data (runCalls className n evs r).2 (className ++ "." ++ n)).length
      = evs.length ∧
    (∀ t ∈ get_profiling_data (runCalls className n evs r).2 (className ++ "." ++ n),
      0 ≤ t) ∧
    (runCalls className n evs r).1 = evs.map (fun ev => ev.outcome) := by
  have hs := runCalls_samples className n evs r hok
  rw [hempty, List.nil_append] at hs
  refine ⟨hs, ?_, ?_, runCalls_results className n evs r⟩
  · rw [hs]; simp [durations]
  · rw [hs]
    intro t ht
    simp only [durations, List.mem_map] at ht
    obtain ⟨ev, hev, rfl⟩ := ht
    have := hclock ev hev
    linarith

/-- Witness for C3: two successful calls starting from the empty
registry, one of them of zero measured duration. -/
theorem successful_calls_sampled_in_order_witness :
    get_profiling_data
        (runCalls "SampleClass" "fast_method"
          [({ start := 0, stop := 1, outcome := Except.ok 5 } : CallEvent ℕ),
           { start := 2, stop := 2, outcome := Except.ok 7 }] []).2
        ("SampleClass" ++ "." ++ "fast_method") = [1, 0] ∧
    (runCalls "SampleClass" "fast_method"
        [({ start := 0, stop := 1, outcome := Except.ok 5 } : CallEvent ℕ),
         { start := 2, stop := 2, outcome := Except.ok 7 }] []).1
      = [Except.ok 5, Except.ok 7] := by
  have h := successful_calls_sampled_in_order "SampleClass" "fast_method"
    [({ start := 0, stop := 1, outcome := Except.ok 5 } : CallEvent ℕ),
     { start := 2, stop := 2, outcome := Except.ok 7 }] []
    (by decide) (by decide) rfl
  exact ⟨by rw [h.1]; norm_num [durations], by rw [h.2.2.2]; simp⟩

/-- C7: two proxies over two different instances of the same class
produce the same registry key for a method name, and one successful call
through each accumulates a two-sample sequence under that single shared
key (class-level aggregation). -/
theorem class_level_aggregation {α : Type} (t1 t2 : Target) (n : String)
    (ev1 ev2 : CallEvent α) (r : Registry) (a1 a2 : α)
    (hsame : t2.className = t1.className)
    (h1 : ev1.outcome = Except.ok a1) (h2 : ev2.outcome = Except.ok a2)
    (hempty : get_profiling_data r ((mkProxy t1).className ++ "." ++ n) = []) :
    (mkProxy t2).className ++ "." ++ n = (mkProxy t1).className ++ "." ++ n ∧
    get_profiling_data
        ((timed_method (mkProxy t2).className n ev2
          ((timed_method (mkProxy t1).className n ev1 r).2)).2)
        ((mkProxy t1).className ++ "." ++ n)
      = [ev1.stop - ev1.start, ev2.stop - ev2.start] ∧
    (get_profiling_data
        ((timed_method (mkProxy t2).className n ev2
          ((timed_method (mkProxy t1).className n ev1 r).2)).2)
        ((mkProxy t1).className ++ "." ++ n)).length = 2 := by
  have hk : (mkProxy t2).className = (mkProxy t1).className := by
    simp [mkProxy, hsame]
  refine ⟨by rw [hk], ?_, ?_⟩
  · simp only [timed_method, h1, h2, hk]
    rw [get_profiling_data_recordSample_self, get_profiling_data_recordSample_self, hempty]
    rfl
  · simp only [timed_method, h1, h2, hk]
    rw [get_profiling_data_recordSample_self, get_profiling_data_recordSample_self, hempty]
    rfl

/-- Witness for C7: two wrapped instances of class `SampleClass`, one
call through each, sharing the key "SampleClass.fast_method". -/
theorem class_level_aggregation_witness :
    get_profiling_data
        ((timed_method
          (mkProxy { className := "SampleClass",
                     attrs := [("counter", { payload := 7, callable := false })] }).className
          "fast_method" ({ start := 3, stop := 5, outcome := Except.ok 1 } : CallEvent ℕ)
          ((timed_method
            (mkProxy { className := "SampleClass", attrs := [] }).className
            "fast_method" ({ start := 0, stop := 1, outcome := Except.ok 0 } : CallEvent ℕ)
            []).2)).2)
        ((mkProxy ({ className := "SampleClass", attrs := [] } : Target)).className
          ++ "." ++ "fast_method")
      = [1, 2] := by
  have h := (class_level_aggregation
    ({ className := "SampleClass", attrs := [] } : Target)
    { className := "SampleClass",
      attrs := [("counter", { payload := 7, callable := false })] }
    "fast_method" ({ start := 0, stop := 1, outcome := Except.ok 0 } : CallEvent ℕ)
    { start := 3, stop := 5, outcome := Except.ok 1 } [] 0 1 rfl rfl rfl rfl).2.1
  rw [h]
  norm_num

/-- C1: every attribute read through the proxy's `__getattr__` hook is
resolved on the wrapped target — the result depends only on the wrapped
object (and the captured class name), never on the proxy's own attribute
dictionary — and the read fails with exactly the target's own
attribute-resolution error, neither masked nor translated: the proxy
errors precisely when the target's `getattr` does, with the same error. -/
theorem attr_read_resolves_on_target (p : Proxy) (n : String) :
    (∀ e, proxy_getattr p n = Except.error e ↔
      target_getattr p.wrapped n = Except.error e) ∧
    (∀ q : Proxy, q.wrapped = p.wrapped → q.className = p.className →
      proxy_getattr q n = proxy_getattr p n) := by
  constructor
  · intro e
    unfold proxy_getattr
    cases h : target_getattr p.wrapped n with
    | error e' => simp
    | ok v => by_cases hc : v.callable <;> simp [hc]
  · intro q hw hc
    unfold proxy_getattr
    rw [hw, hc]

/-- Witness for C1 at a concrete proxy and a name the target lacks: the
proxy's attribute read fails exactly when (and how) the target's does. -/
theorem attr_read_resolves_on_target_witness :
    proxy_getattr (mkProxy { className := "SampleClass", attrs := [("fast_method", { payload := 1, callable := true })] }) "missing"
        = Except.error "AttributeError: SampleClass object has no attribute missing" ↔
      target_getattr (mkProxy { className := "SampleClass", attrs := [("fast_method", { payload := 1, callable := true })] }).wrapped "missing"
        = Except.error "AttributeError: SampleClass object has no attribute missing" :=
  (attr_read_resolves_on_target
    (mkProxy { className := "SampleClass", attrs := [("fast_method", { payload := 1, callable := true })] })
    "missing").1 "AttributeError: SampleClass object has no attribute missing"

/-- C2: a wrapped call whose underlying method raises propagates that
failure unchanged and records no sample: the timed substitute returns
the very same error and leaves the shared registry exactly as it was. -/
theorem failed_call_records_nothing {α : Type} (className n : String)
    (ev : CallEvent α) (r : Registry) (e : String)
    (h : ev.outcome = Except.error e) :
    timed_method className n ev r = (Except.error e, r) := by
  unfold timed_method
  rw [h]

/-- Witness for C2 at a concrete failing call on a non-empty registry. -/
theorem failed_call_records_nothing_witness :
    timed_method "SampleClass" "fast_method"
        ({ start := 0, stop := 1, outcome := Except.error "ValueError: boom" } : CallEvent ℕ)
        [("SampleClass.fast_method", [(1 : ℚ)])]
      = (Except.error "ValueError: boom", [("SampleClass.fast_method", [(1 : ℚ)])]) :=
  failed_call_records_nothing "SampleClass" "fast_method" _ _ _ rfl

/-- C4: for every key whose sample sequence is empty — a key never
recorded as well as a key present but cleared — `get_statistics` returns
exactly the zero record and (being a total function) never fails. -/
theorem stats_empty_key_zero_record (r : Registry) (k : String)
    (h : get_profiling_data r k = []) :
    get_statistics r k =
      { count := 0, mean := 0, median := 0, std := 0, min := 0, max := 0, total := 0 } := by
  unfold get_statistics
  simp [h]

/-- Witness for C4 on a never-recorded key of the empty registry and on
a key present but mapped to the empty sequence. -/
theorem stats_empty_key_zero_record_witness :
    get_statistics [] "NonExistent.method" =
      { count := 0, mean := 0, median := 0, std := 0, min := 0, max := 0, total := 0 } ∧
    get_statistics [("SampleClass.fast_method", [])] "SampleClass.fast_method" =
      { count := 0, mean := 0, median := 0, std := 0, min := 0, max := 0, total := 0 } :=
  ⟨stats_empty_key_zero_record [] "NonExistent.method" rfl,
   stats_empty_key_zero_record [("SampleClass.fast_method", [])] "SampleClass.fast_method" rfl⟩

/-- C5: clearing a specific key empties that key's sample sequence while
keeping the registry's key set unchanged (the key stays present, so
subsequent reads see an empty sequence rather than an unknown key),
leaves every other key's samples untouched, and is a failure-free no-op
when the key does not exist. -/
theorem clear_key_frame (r : Registry) (k k' : String) (hne : k' ≠ k) :
    get_profiling_data (clear_profiling_data r (some k)) k = [] ∧
    (clear_profiling_data r (some k)).map Prod.fst = r.map Prod.fst ∧
    get_profiling_data (clear_profiling_data r (some k)) k' = get_profiling_data r k' ∧
    (hasKey r k = false → clear_profiling_data r (some k) = r) := by
  by_cases h : hasKey r k = true
  · refine ⟨?_, ?_, ?_, ?_⟩
    · simp [clear_profiling_data, h, get_profiling_data, alookup_aset_self]
    · simp only [clear_profiling_data, h, if_true]
      exact aset_keys_of_mem r k [] (by simpa [hasKey] using h)
    · simp only [clear_profiling_data, h, if_true, get_profiling_data]
      rw [alookup_aset_ne r k k' [] hne]
    · intro hf
      rw [h] at hf
      cases hf
  · have h' : hasKey r k = false := by
      cases hb : hasKey r k
      · rfl
      · exact absurd hb h
    refine ⟨?_, ?_, ?_, fun _ => ?_⟩
    · simp only [clear_profiling_data, h', if_false, Bool.false_eq_true]
      unfold get_profiling_data
      unfold hasKey at h'
      cases hk : alookup r k with
      | some xs => rw [hk] at h'; cases h'
      | none => rfl
    · simp [clear_profiling_data, h']
    · simp [clear_profiling_data, h']
    · simp [clear_profiling_data, h']

/-- Witness for C5 on a concrete two-key registry, plus the no-op case
on a registry without the cleared key. -/
theorem clear_key_frame_witness :
    get_profiling_data
        (clear_profiling_data [("A.f", [(1 : ℚ)]), ("A.g", [(2 : ℚ)])] (some "A.f")) "A.f" = [] ∧
    get_profiling_data
        (clear_profiling_data [("A.f", [(1 : ℚ)]), ("A.g", [(2 : ℚ)])] (some "A.f")) "A.g"
      = get_profiling_data [("A.f", [(1 : ℚ)]), ("A.g", [(2 : ℚ)])] "A.g" ∧
    clear_profiling_data [("A.g", [(2 : ℚ)])] (some "A.f") = [("A.g", [(2 : ℚ)])] :=
  ⟨(clear_key_frame [("A.f", [(1 : ℚ)]), ("A.g", [(2 : ℚ)])] "A.f" "A.g" (by decide)).1,
   (clear_key_frame [("A.f", [(1 : ℚ)]), ("A.g", [(2 : ℚ)])] "A.f" "A.g" (by decide)).2.2.1,
   (clear_key_frame [("A.g", [(2 : ℚ)])] "A.f" "A.g" (by decide)).2.2.2 (by decide)⟩

/-- C9: the read accessors leave the registry exactly unchanged — in
particular, even though the backing store is a default-creating
mapping, no key is lazily created by `get_profiling_data`,
`get_all_profiling_data` or `get_statistics`, on known and unknown keys
alike — and the guarded read agrees with the pure sample view. -/
theorem reads_preserve_registry (r : Registry) (k : String) :
    (get_profiling_data_st r k).2 = r ∧
    (get_profiling_data_st r k).1 = get_profiling_data r k ∧
    (get_all_profiling_data_st r).2 = r ∧
    (get_statistics_st r k).2 = r := by
  have h1 : (get_profiling_data_st r k).2 = r := by
    unfold get_profiling_data_st dd_getitem hasKey
    cases h : alookup r k <;> simp [h]
  have h2 : (get_profiling_data_st r k).1 = get_profiling_data r k := by
    unfold get_profiling_data_st dd_getitem hasKey get_profiling_data
    cases h : alookup r k <;> simp [h]
  refine ⟨h1, h2, rfl, ?_⟩
  unfold get_statistics_st
  cases hp : get_profiling_data_st r k with
  | mk data r' =>
    rw [hp] at h1
    by_cases hd : data.length = 0 <;> simp [hd, h1]

/-- A name none of whose stored neighbours satisfies a key predicate
that it fails itself is absent from the dictionary. -/
theorem alookup_none_of_forall {β : Type} (l : List (String × β)) (n : String)
    (P : String → Prop) (hall : ∀ e ∈ l, P e.1) (hn : ¬ P n) : alookup l n = none := by
  induction l with
  | nil => rfl
  | cons e rest ih =>
    have hne : e.1 ≠ n := fun h => hn (h ▸ hall e (by simp))
    simp [alookup, hne]
    exact ih (fun e' he' => hall e' (by simp [he']))

/-- Counterexample to C6 as stated: at the concrete proxy over an empty
object of class `T`, writing the *callable* value `v` to the
non-reserved name `x` and reading `x` back does not return `v` — the
read returns the timed substitute wrapping `v` instead of `v` itself. -/
theorem setattr_roundtrip_counterexample :
    ¬ (proxy_read
        (proxy_setattr (mkProxy { className := "T", attrs := [] }) "x"
          { payload := 0, callable := true }) "x"
      = Except.ok (ReadResult.raw { payload := 0, callable := true })) := by
  intro h
  have h2 : proxy_read
      (proxy_setattr (mkProxy { className := "T", attrs := [] }) "x"
        { payload := 0, callable := true }) "x"
      = Except.ok (ReadResult.timed ("T" ++ "." ++ "x") { payload := 0, callable := true }) := by
    simp [proxy_read, proxy_setattr, startsWithUnderscore, proxy_getattr, target_getattr,
      alookup, aset, mkProxy]
  rw [h2] at h
  simp at h

/-- C6 as amended: writing a non-reserved attribute (name not starting
with the reserved underscore prefix) through the proxy always forwards
the write to the wrapped target, so the target's own attribute equals
the written value; the subsequent read through the proxy returns the
value itself when it is not callable, and the timed substitute wrapping
it when it is callable. The proxy's own dictionary holds only reserved
underscore names, as every proxy constructed by `__init__` and updated
by `__setattr__` does. -/
theorem setattr_forward_roundtrip (p : Proxy) (x : String) (v : PyVal)
    (hx : startsWithUnderscore x = false)
    (hinv : ∀ e ∈ p.ownAttrs, startsWithUnderscore e.1 = true) :
    alookup (proxy_setattr p x v).wrapped.attrs x = some v ∧
    (v.callable = false →
      proxy_read (proxy_setattr p x v) x = Except.ok (ReadResult.raw v)) ∧
    (v.callable = true →
      proxy_read (proxy_setattr p x v) x
        = Except.ok (ReadResult.timed (p.className ++ "." ++ x) v)) := by
  have hxs : ¬ startsWithUnderscore x = true := by simp [hx]
  have hown : alookup p.ownAttrs x = none :=
    alookup_none_of_forall p.ownAttrs x (fun s => startsWithUnderscore s = true) hinv hxs
  have hlook : alookup (aset p.wrapped.attrs x v) x = some v :=
    alookup_aset_self p.wrapped.attrs x v
  refine ⟨?_, ?_, ?_⟩
  · simp [proxy_setattr, hx, hlook]
  · intro hc
    simp [proxy_read, proxy_setattr, hx, hown, proxy_getattr, target_getattr, hlook, hc]
  · intro hc
    simp [proxy_read, proxy_setattr, hx, hown, proxy_getattr, target_getattr, hlook, hc]

/-- Witness for the amended C6: a non-callable write forwarded to a
concrete wrapped object round-trips through both the proxy read and the
target's own attribute dictionary. -/
theorem setattr_forward_roundtrip_witness :
    alookup
        (proxy_setattr (mkProxy { className := "SampleClass", attrs := [] }) "counter"
          { payload := 5, callable := false }).wrapped.attrs "counter"
      = some { payload := 5, callable := false } ∧
    proxy_read
        (proxy_setattr (mkProxy { className := "SampleClass", attrs := [] }) "counter"
          { payload := 5, callable := false }) "counter"
      = Except.ok (ReadResult.raw { payload := 5, callable := false }) := by
  have h := setattr_forward_roundtrip (mkProxy { className := "SampleClass", attrs := [] })
    "counter" { payload := 5, callable := false } (by decide) (by intro e he; cases he)
  exact ⟨h.1, h.2.1 rfl⟩

/-- Expansion of a sum of squared deviations about an arbitrary centre. -/
theorem sum_sq_sub_expand (l : List ℚ) (c : ℚ) :
    (l.map (fun x => (x - c) ^ 2)).sum
      = (l.map (fun x => x ^ 2)).sum - 2 * c * l.sum + l.length * c ^ 2 := by
  induction l with
  | nil => simp
  | cons x xs ih =>
    simp only [List.map_cons, List.sum_cons, ih, List.length_cons]
    push_cast
    ring

/-- The mean squared deviation computed by `np.std` is the population
variance in moment form: both divide by N. -/
theorem npVar_eq_populationVariance (l : List ℚ) (h : l ≠ []) :
    npVar l = populationVariance l := by
  have hn : (l.length : ℚ) ≠ 0 := by
    have h0 : l.length ≠ 0 := fun h0 => h (List.length_eq_zero.mp h0)
    exact_mod_cast h0
  unfold npVar populationVariance npMean
  rw [sum_sq_sub_expand]
  field_simp
  ring

/-- The quantity under the square root in `np.std` is non-negative. -/
theorem npVar_nonneg (l : List ℚ) : 0 ≤ npVar l := by
  unfold npVar
  apply div_nonneg
  · apply List.sum_nonneg
    intro x hx
    simp only [List.mem_map] at hx
    obtain ⟨y, _, rfl⟩ := hx
    positivity
  · exact_mod_cast Nat.zero_le _

/-- C8: on a non-empty sample sequence, the `std` field of
`get_statistics` is the population standard deviation — the square root
of the population variance, the variance dividing by N and not N − 1,
so its square times N recovers the sum of squared deviations — and the
`count` field equals the length of the sample sequence the accessor
returns. -/
theorem stats_std_is_population_std (r : Registry) (k : String)
    (h : get_profiling_data r k ≠ []) :
    (get_statistics r k).std
      = Real.sqrt (populationVariance (get_profiling_data r k)) ∧
    (get_statistics r k).std ^ 2
      = (populationVariance (get_profiling_data r k) : ℝ) ∧
    (get_statistics r k).std ^ 2 * (get_profiling_data r k).length
      = (((((get_profiling_data r k).map
          (fun x => (x - npMean (get_profiling_data r k)) ^ 2)).sum : ℚ)) : ℝ) ∧
    (get_statistics r k).count = (get_profiling_data r k).length := by
  have hl : ¬ (get_profiling_data r k).length = 0 :=
    fun h0 => h (List.length_eq_zero.mp h0)
  have hstd : (get_statistics r k).std = npStd (get_profiling_data r k) := by
    unfold get_statistics
    simp [hl]
  have h1 : (get_statistics r k).std
      = Real.sqrt (populationVariance (get_profiling_data r k)) := by
    rw [hstd]
    unfold npStd
    rw [npVar_eq_populationVariance _ h]
  have hvar : (0 : ℝ) ≤ (populationVariance (get_profiling_data r k) : ℝ) := by
    rw [← npVar_eq_populationVariance _ h]
    exact_mod_cast npVar_nonneg (get_profiling_data r k)
  have h2 : (get_statistics r k).std ^ 2
      = (populationVariance (get_profiling_data r k) : ℝ) := by
    rw [h1]
    exact Real.sq_sqrt hvar
  refine ⟨h1, h2, ?_, ?_⟩
  · have hn : ((get_profiling_data r k).length : ℚ) ≠ 0 := by
      exact_mod_cast hl
    have hq : npVar (get_profiling_data r k) * (get_profiling_data r k).length
        = ((get_profiling_data r k).map
            (fun x => (x - npMean (get_profiling_data r k)) ^ 2)).sum := by
      unfold npVar
      exact div_mul_cancel₀ _ hn
    rw [h2, ← npVar_eq_populationVariance _ h]
    exact_mod_cast hq
  · unfold get_statistics
    simp [hl]

/-- Witness for C8 on the concrete samples `[1, 3]`: the squared `std`
field equals the population variance of the returned samples, and the
`count` field equals their number. -/
theorem stats_std_is_population_std_witness :
    (get_statistics [("A.f", [(1 : ℚ), 3])] "A.f").std ^ 2
      = (populationVariance (get_profiling_data [("A.f", [(1 : ℚ), 3])] "A.f") : ℝ) ∧
    (get_statistics [("A.f", [(1 : ℚ), 3])] "A.f").count
      = (get_profiling_data [("A.f", [(1 : ℚ), 3])] "A.f").length :=
  ⟨(stats_std_is_population_std [("A.f", [(1 : ℚ), 3])] "A.f" (by decide)).2.1,
   (stats_std_is_population_std [("A.f", [(1 : ℚ), 3])] "A.f" (by decide)).2.2.2⟩

/-- Looking up below the length of the left part ignores the extension. -/
theorem get?_append_lt {α : Type} (l l' : List α) (n : ℕ) (h : n < l.length) :
    (l ++ l').get? n = l.get? n := by
  induction l generalizing n with
  | nil => cases h
  | cons x xs ih =>
    cases n with
    | zero => rfl
    | succ m => exact ih m (Nat.lt_of_succ_lt_succ h)

/-- A successful lookup pairs the key with a stored entry. -/
theorem mem_of_alookup {β : Type} (l : List (String × β)) (n : String) (v : β)
    (h : alookup l n = some v) : (n, v) ∈ l := by
  induction l with
  | nil => cases h
  | cons e rest ih =>
    by_cases he : e.1 = n
    · simp [alookup, he] at h
      have : e = (n, v) := Prod.ext he h
      rw [← this]
      exact List.mem_cons_self e rest
    · simp [alookup, he] at h
      exact List.mem_cons_of_mem e (ih h)

/-- Reading a cell other than the one written is unaffected. -/
theorem readCell_writeCell_ne (s : HStore) (a b : ℕ) (v : List ℚ) (h : a ≠ b) :
    readCell (writeCell s a v) b = readCell s b := by
  unfold readCell writeCell
  rw [List.get?_eq_getElem?, List.get?_eq_getElem?, List.getElem?_set_ne h]

/-- Recording a sample never changes a cell outside the registry's
reach: a cell that no registry entry references and that already exists
on the heap reads the same afterwards. -/
theorem readCell_hRecordSample_of_fresh (s : HStore) (k : String) (t : ℚ) (b : ℕ)
    (hnoref : ∀ e ∈ s.reg, e.2 ≠ b) (hb : b < s.heap.length) :
    readCell (hRecordSample s k t) b = readCell s b := by
  unfold hRecordSample
  cases h : alookup s.reg k with
  | some a =>
    exact readCell_writeCell_ne s a b _ (hnoref (k, a) (mem_of_alookup s.reg k a h))
  | none =>
    simp only [readCell]
    show ((s.heap ++ [[t]]).get? b).getD [] = (s.heap.get? b).getD []
    rw [get?_append_lt s.heap [[t]] b hb]

/-- Shape of `hGetSamples`: the returned address is the first fresh one,
the registry is untouched and the heap is extended by one copy cell. -/
theorem hGetSamples_shape (s : HStore) (k : String) :
    (hGetSamples s k).1 = s.heap.length ∧
    (hGetSamples s k).2.reg = s.reg ∧
    ∃ c, (hGetSamples s k).2.heap = s.heap ++ [c] := by
  unfold hGetSamples allocCell
  cases h : alookup s.reg k <;> simp

/-- Shape of `hGetAllAux`: the registry is untouched, the heap is only
extended, and every returned address is fresh relative to the starting
heap and allocated below the final heap size. -/
theorem hGetAllAux_shape (l : List (String × ℕ)) (s : HStore) :
    (hGetAllAux s l).2.reg = s.reg ∧
    (∃ ext, (hGetAllAux s l).2.heap = s.heap ++ ext) ∧
    (∀ p ∈ (hGetAllAux s l).1,
      s.heap.length ≤ p.2 ∧ p.2 < (hGetAllAux s l).2.heap.length) := by
  induction l generalizing s with
  | nil => exact ⟨rfl, ⟨[], by simp [hGetAllAux]⟩, by simp [hGetAllAux]⟩
  | cons e rest ih =>
    obtain ⟨k, a⟩ := e
    rcases hrec : hGetAllAux { heap := s.heap ++ [readCell s a], reg := s.reg } rest
      with ⟨out, s2⟩
    have hfold : hGetAllAux s ((k, a) :: rest) = ((k, s.heap.length) :: out, s2) := by
      simp [hGetAllAux, allocCell, hrec]
    obtain ⟨hreg, ⟨ext, hheap⟩, hmem⟩ := ih { heap := s.heap ++ [readCell s a], reg := s.reg }
    rw [hrec] at hreg hheap hmem
    rw [hfold]
    refine ⟨hreg, ⟨readCell s a :: ext, by simpa using hheap⟩, ?_⟩
    intro p hp
    rcases List.mem_cons.mp hp with hpe | hpo
    · subst hpe
      refine ⟨Nat.le_refl _, ?_⟩
      rw [hheap]
      simp
    · obtain ⟨hlo, hhi⟩ := hmem p hpo
      refine ⟨?_, hhi⟩
      calc s.heap.length ≤ (s.heap ++ [readCell s a]).length := by simp
        _ ≤ p.2 := hlo

/-- C10: the sample sequences handed out by the accessors are fresh
copies. After a `get_profiling_data` read, recording further samples
never changes the returned array's cell, and overwriting the returned
array's cell never changes any cell the registry references; likewise
for every array in the mapping returned by `get_all_profiling_data`. -/
theorem returned_arrays_are_fresh_copies (s : HStore) (k : String) (hwf : HWF s) :
    (∀ k' t, readCell (hRecordSample (hGetSamples s k).2 k' t) (hGetSamples s k).1
        = readCell (hGetSamples s k).2 (hGetSamples s k).1) ∧
    (∀ v k' b, alookup (hGetSamples s k).2.reg k' = some b →
        readCell (writeCell (hGetSamples s k).2 (hGetSamples s k).1 v) b
          = readCell (hGetSamples s k).2 b) ∧
    (∀ p ∈ (hGetAll s).1, ∀ k' t,
        readCell (hRecordSample (hGetAll s).2 k' t) p.2 = readCell (hGetAll s).2 p.2) ∧
    (∀ p ∈ (hGetAll s).1, ∀ v k' b, alookup (hGetAll s).2.reg k' = some b →
        readCell (writeCell (hGetAll s).2 p.2 v) b = readCell (hGetAll s).2 b) := by
  unfold hGetAll
  obtain ⟨ha, hreg, c, hheap⟩ := hGetSamples_shape s k
  obtain ⟨hareg, ⟨ext, haheap⟩, hamem⟩ := hGetAllAux_shape s.reg s
  have hwf' : ∀ e ∈ s.reg, e.2 < s.heap.length := hwf
  refine ⟨?_, ?_, ?_, ?_⟩
  · intro k' t
    apply readCell_hRecordSample_of_fresh
    · intro e he
      rw [hreg] at he
      have := hwf' e he
      rw [ha]
      exact Nat.ne_of_lt this
    · rw [ha, hheap]
      simp
  · intro v k' b hb
    rw [hreg] at hb
    have hblt := hwf' (k', b) (mem_of_alookup s.reg k' b hb)
    apply readCell_writeCell_ne
    rw [ha]
    exact Nat.ne_of_gt hblt
  · intro p hp k' t
    obtain ⟨hlo, hhi⟩ := hamem p hp
    apply readCell_hRecordSample_of_fresh
    · intro e he
      rw [hareg] at he
      have := hwf' e he
      exact Nat.ne_of_lt (Nat.lt_of_lt_of_le this hlo)
    · exact hhi
  · intro p hp v k' b hb
    obtain ⟨hlo, _⟩ := hamem p hp
    rw [hareg] at hb
    have hblt := hwf' (k', b) (mem_of_alookup s.reg k' b hb)
    exact readCell_writeCell_ne _ p.2 b v
      (Nat.ne_of_lt (Nat.lt_of_lt_of_le hblt hlo)).symm

/-- Witness for C10 on a concrete one-key store: recording another
sample does not change the array previously returned by the read. -/
theorem returned_arrays_are_fresh_copies_witness :
    readCell
        (hRecordSample (hGetSamples { heap := [[(1 : ℚ)]], reg := [("A.f", 0)] } "A.f").2
          "A.f" 3)
        (hGetSamples { heap := [[(1 : ℚ)]], reg := [("A.f", 0)] } "A.f").1
      = readCell (hGetSamples { heap := [[(1 : ℚ)]], reg := [("A.f", 0)] } "A.f").2
          (hGetSamples { heap := [[(1 : ℚ)]], reg := [("A.f", 0)] } "A.f").1 :=
  (returned_arrays_are_fresh_copies { heap := [[(1 : ℚ)]], reg := [("A.f", 0)] } "A.f"
    (by intro e he; simp at he; subst he; simp)).1 "A.f" 3

end PyProfiler
